import Mathlib

/-!
Verification of the coroutine pipeline library (sources: `src/__init__.py`,
`src/coroutine.py`).

Shallow-embedding conventions:

* Python's `GeneratorExit` class object, which `threaded` and `multiprocessed`
  use as the queue sentinel (`messages.put(GeneratorExit)` on close, tested by
  the worker with `item is GeneratorExit`), is modelled as a distinguished
  value `sentinel` of the item type; the identity test is equality with that
  value.  Items and sentinels share one type, exactly as every Python value
  can be put on the queue.
* A worker (`run_target` in `threaded._threaded`) is a small state machine
  with an explicit program point: `Phase.atCheck` is the top of the
  `while not stopEvent.is_set():` loop (the only place the stop flag is read),
  `Phase.waiting` is inside the blocking `messages.get()` call,
  `Phase.done` is after `target.close()` returned (normal exit), and
  `Phase.crashed` is the thread dying from an uncaught error raised by
  `target.send(item)` (in which case `target.close()` is skipped, because the
  source has no try/except around the loop body).
* The downstream stage built by `wrapped_target()` is modelled abstractly by a
  state type `σ` with a `dsend` operation that may raise (`none` = the Python
  call raised) and a total `dclose` operation; each thread-pool worker records
  in `sent` the items it forwarded, so the trace of downstream calls is
  observable.
* Concurrency is modelled by interleaving: a schedule is a list of worker
  indices; each entry lets that worker perform its next atomic micro-step if
  one is enabled (a worker blocked in `messages.get()` on an empty queue has
  no enabled step, mirroring the blocking call).
* `multiprocessed` (from `src/__init__.py`) is embedded separately: its
  constructor receives an already-built coroutine (`target`) rather than a
  zero-argument factory.  Since `multiprocessing.Process(...).start()` forks,
  each worker process runs `run_target` on its own copy of that pre-built
  target, taken at spawn time; the model gives every worker a private
  downstream state initialized to the constructor argument, with no factory
  invocation anywhere, and keeps the parent's stored reference untouched.
* `src/coroutine.py`'s `multiprocessed.__init__` evaluates
  `self._multiprocessed()` while the class only defines `_multiprocess`; the
  embedding models that attribute lookup against the literal sets of names
  bound by the class body and by `__init__` before the lookup.
-/

namespace Coro

/-! ### Broadcast (`broadcast` in `src/__init__.py`, lines 54-74) -/

section BroadcastDefs

variable {T α ε : Type}

/-- Body of one `send` on `broadcast`: `for target in targets: target.send(item)`.
`beh t item` is what `t.send(item)` does (`Except.error e` = raises `e`).
Returns the result seen by the caller of `broadcast`'s `send` (an uncaught
error from a target propagates, since the generator's `try` only catches
`GeneratorExit`) together with the list of targets whose `send` was invoked,
in invocation order. -/
def broadcastSend (beh : T → α → Except ε Unit) : List T → α → Except ε Unit × List T
  | [], _ => (Except.ok (), [])
  | t :: rest, item =>
    match beh t item with
    | Except.ok _ =>
      let p := broadcastSend beh rest item
      (p.1, t :: p.2)
    | Except.error e => (Except.error e, [t])

end BroadcastDefs

/-! ### Thread-backed pool (`threaded` in `src/__init__.py`, lines 78-156) -/

section PoolDefs

variable {α σ : Type}

/-- Program point of a worker thread executing `run_target`. -/
inductive Phase : Type
  | atCheck
  | waiting
  | done
  | crashed
deriving DecidableEq

/-- State of one worker thread: its program point, the state `down` of the
private downstream stage it obtained from `target = self._wrapped_target()`,
the trace `sent` of items it forwarded via `target.send(item)`, the number of
`target.close()` calls it made, and the number of sentinels it consumed. -/
structure Worker (α σ : Type) where
  phase : Phase
  down : σ
  sent : List α
  closes : Nat
  sentinels : Nat
deriving DecidableEq

/-- Parameters of the thread pool: the sentinel value (`GeneratorExit`), the
downstream-stage factory (`wrapped_target`; argument `i` identifies the
invocation, so distinct invocations may build distinct fresh stages), and the
downstream stage's two operations. -/
structure Cfg (α σ : Type) where
  sentinel : α
  factory : Nat → σ
  dsend : σ → α → Option σ
  dclose : σ → σ

/-- State of the whole `threaded` pool: the shared FIFO queue (`messages`,
head = next to be dequeued), the workers, the stop flag (`_stopEvent`), and
`_num_threads`. -/
structure PoolState (α σ : Type) where
  queue : List α
  workers : List (Worker α σ)
  stopFlag : Bool
  numThreads : Nat
deriving DecidableEq

/-- Worker state at thread start, right after `target = self._wrapped_target()`:
at the top of the loop, with a fresh downstream stage and empty history. -/
def freshWorker (d : σ) : Worker α σ :=
  { phase := Phase.atCheck, down := d, sent := [], closes := 0, sentinels := 0 }

/-- Pool construction (`threaded.__init__` plus priming of `_threaded`): the
queue is created empty, the stop event is unset, and `num_threads` threads are
started, each invoking the factory once for its own private downstream stage. -/
def threadedInit (cfg : Cfg α σ) (n : Nat) : PoolState α σ :=
  { queue := []
    workers := (List.range n).map (fun i => freshWorker (cfg.factory i))
    stopFlag := false
    numThreads := n }

/-- Producer `send` (`threaded.send` forwarding to the generator, which does
`messages.put(item)`): enqueue the raw value, no check, no blocking. -/
def threadedSend (st : PoolState α σ) (v : α) : PoolState α σ :=
  { st with queue := st.queue ++ [v] }

/-- A sequence of producer `send` calls. -/
def threadedSendAll (st : PoolState α σ) (items : List α) : PoolState α σ :=
  items.foldl threadedSend st

/-- Producer `close` (`threaded.close` closing the generator, whose
`GeneratorExit` handler runs `for i in xrange(self._num_threads):
messages.put(GeneratorExit)`): enqueue one sentinel per worker and return.
No worker state is touched and no waiting occurs. -/
def threadedClose (cfg : Cfg α σ) (st : PoolState α σ) : PoolState α σ :=
  { st with queue := st.queue ++ List.replicate st.numThreads cfg.sentinel }

/-- Producer `stop` (`threaded.stop`): set the cooperative flag, nothing else. -/
def threadedStop (st : PoolState α σ) : PoolState α σ :=
  { st with stopFlag := true }

/-- Replace worker `i`'s state. -/
def setWorker (st : PoolState α σ) (i : Nat) (w : Worker α σ) : PoolState α σ :=
  { st with workers := st.workers.set i w }

/-- One atomic micro-step of worker `i` executing `run_target`:

* at the top of the loop the worker reads the stop flag once: if set, the loop
  exits and `target.close()` runs; otherwise the worker enters `messages.get()`;
* inside `messages.get()` the worker blocks while the queue is empty (no state
  change); with a nonempty queue it dequeues the head: a sentinel
  (`item is GeneratorExit`) breaks the loop and `target.close()` runs, any
  other value is forwarded with `target.send(item)` — if that call raises, the
  exception propagates out of `run_target` and the thread dies without calling
  `target.close()`; otherwise the worker returns to the top of the loop.

A terminated (`done`) or dead (`crashed`) worker has no steps. -/
def runTargetStep [DecidableEq α] (cfg : Cfg α σ) (st : PoolState α σ) (i : Nat) :
    PoolState α σ :=
  match st.workers[i]? with
  | none => st
  | some w =>
    match w.phase with
    | Phase.done => st
    | Phase.crashed => st
    | Phase.atCheck =>
      if st.stopFlag then
        setWorker st i { w with phase := Phase.done, down := cfg.dclose w.down,
                                closes := w.closes + 1 }
      else
        setWorker st i { w with phase := Phase.waiting }
    | Phase.waiting =>
      match st.queue with
      | [] => st
      | v :: rest =>
        if v = cfg.sentinel then
          { setWorker st i { w with phase := Phase.done, down := cfg.dclose w.down,
                                    closes := w.closes + 1,
                                    sentinels := w.sentinels + 1 } with
            queue := rest }
        else
          match cfg.dsend w.down v with
          | some d =>
            { setWorker st i { w with phase := Phase.atCheck, down := d,
                                      sent := w.sent ++ [v] } with
              queue := rest }
          | none =>
            { setWorker st i { w with phase := Phase.crashed,
                                      sent := w.sent ++ [v] } with
              queue := rest }

/-- Run the pool under an interleaving schedule (list of worker indices). -/
def run [DecidableEq α] (cfg : Cfg α σ) (st : PoolState α σ) (sched : List Nat) :
    PoolState α σ :=
  sched.foldl (runTargetStep cfg) st

/-- Whether worker `i` has an enabled micro-step: a worker at the loop top
always does; a worker inside `messages.get()` only if the queue is nonempty
(the call blocks on an empty queue); terminated or crashed workers never do. -/
def enabled (st : PoolState α σ) (i : Nat) : Bool :=
  match st.workers[i]? with
  | none => false
  | some w =>
    match w.phase with
    | Phase.atCheck => true
    | Phase.waiting => !st.queue.isEmpty
    | Phase.done => false
    | Phase.crashed => false

/-- Executable check that no worker has an enabled step. -/
def stuckB (st : PoolState α σ) : Bool :=
  (List.range st.workers.length).all (fun i => !enabled st i)

/-- No worker has an enabled step: the run is maximal. -/
def Stuck (st : PoolState α σ) : Prop :=
  ∀ i, enabled st i = false

/-- A worker still inside its loop. -/
def Worker.alive (w : Worker α σ) : Bool :=
  match w.phase with
  | Phase.atCheck => true
  | Phase.waiting => true
  | Phase.done => false
  | Phase.crashed => false

/-- Number of workers still inside their loops. -/
def aliveCount (st : PoolState α σ) : Nat :=
  st.workers.countP Worker.alive

/-- Queue entries other than the sentinel. -/
def nonSentinel [DecidableEq α] (cfg : Cfg α σ) (q : List α) : List α :=
  q.filter (fun a => decide (a ≠ cfg.sentinel))

/-- Per-worker invariant during a run that starts from construction, with the
stop flag unset and a downstream `send` that never raises: a worker has closed
its private stage and consumed a sentinel exactly once when terminated and
never before, and never crashes. -/
def WInv (w : Worker α σ) : Prop :=
  (w.phase = Phase.done → w.closes = 1 ∧ w.sentinels = 1) ∧
  (w.phase ≠ Phase.done → w.closes = 0 ∧ w.sentinels = 0) ∧
  w.phase ≠ Phase.crashed

/-- Global invariant of the thread pool after `items` were sent and `close`
was called (so the initial queue was `items` followed by `n` sentinels):
worker count is stable, the flag stays unset, the queue is a suffix of the
initial queue, the sentinels still queued are exactly matched by the workers
still running, every worker satisfies `WInv`, and the not-yet-dequeued items
together with all forwarded items form a permutation of the sent items. -/
structure Inv [DecidableEq α] (cfg : Cfg α σ) (items : List α) (n : Nat)
    (st : PoolState α σ) : Prop where
  wlen : st.workers.length = n
  flag : st.stopFlag = false
  sfx : st.queue <:+ items ++ List.replicate n cfg.sentinel
  scount : st.queue.count cfg.sentinel = aliveCount st
  winv : ∀ w ∈ st.workers, WInv w
  perm : List.Perm (nonSentinel cfg st.queue ++ (st.workers.map Worker.sent).flatten) items

end PoolDefs

/-! ### Process-backed pool (`multiprocessed` in `src/__init__.py`, lines
158-226).  Unlike `threaded`, its constructor takes an already-built coroutine
(`target`), not a zero-argument factory.  `multiprocessing.Process(...).start()`
forks, so each worker process executes `run_target` on its own copy of that
pre-built target, taken at spawn time: no factory is invoked, every worker's
private downstream starts as a copy of the one constructor argument, and each
worker advances and closes only its own copy; the parent's stored reference
(`self._target`) is never touched by the workers. -/

section MPoolDefs

variable {α σ : Type}

/-- State of one pool process: program point, the state `down` of its own
fork copy of the pre-built target, the items it forwarded to that copy, the
number of `target.close()` calls it made on it, and the sentinels it
consumed. -/
structure MWorker (α σ : Type) where
  phase : Phase
  down : σ
  sentBy : List α
  closes : Nat
  sentinels : Nat
deriving DecidableEq

/-- Parameters of the process pool: sentinel value and the target's
operations.  There is no factory parameter, matching `__init__(self,
num_processes, target)`. -/
structure MCfg (α σ : Type) where
  sentinel : α
  dsend : σ → α → Option σ
  dclose : σ → σ

/-- State of the whole `multiprocessed` pool: shared queue, the parent
process's stored reference `target` (`self._target`, untouched after
construction), workers each with their own fork copy, stop flag, and
`_num_processes`. -/
structure MPoolState (α σ : Type) where
  queue : List α
  target : σ
  workers : List (MWorker α σ)
  stopFlag : Bool
  numProcesses : Nat
deriving DecidableEq

/-- Pool construction (`multiprocessed.__init__` plus priming of
`_multiprocessed`): empty queue, stop event unset, `num_processes` worker
processes started by fork; no factory is invoked — each worker's private
downstream starts as a copy of the single constructor argument `t`, and the
parent keeps its own reference to `t`. -/
def mpInit (n : Nat) (t : σ) : MPoolState α σ :=
  { queue := []
    target := t
    workers := List.replicate n
      { phase := Phase.atCheck, down := t, sentBy := [], closes := 0, sentinels := 0 }
    stopFlag := false
    numProcesses := n }

/-- Replace worker `i`'s state. -/
def msetWorker (st : MPoolState α σ) (i : Nat) (w : MWorker α σ) : MPoolState α σ :=
  { st with workers := st.workers.set i w }

/-- One atomic micro-step of process-pool worker `i` executing its
`run_target`: the same loop as the threaded variant, except that
`target.send` and `target.close` act on the worker's own fork copy `down` —
process isolation means no worker can reach another worker's copy or the
parent's reference. -/
def mpStep [DecidableEq α] (cfg : MCfg α σ) (st : MPoolState α σ) (i : Nat) :
    MPoolState α σ :=
  match st.workers[i]? with
  | none => st
  | some w =>
    match w.phase with
    | Phase.done => st
    | Phase.crashed => st
    | Phase.atCheck =>
      if st.stopFlag then
        msetWorker st i { w with phase := Phase.done, down := cfg.dclose w.down,
                                 closes := w.closes + 1 }
      else
        msetWorker st i { w with phase := Phase.waiting }
    | Phase.waiting =>
      match st.queue with
      | [] => st
      | v :: rest =>
        if v = cfg.sentinel then
          { msetWorker st i { w with phase := Phase.done, down := cfg.dclose w.down,
                                     closes := w.closes + 1,
                                     sentinels := w.sentinels + 1 } with
            queue := rest }
        else
          match cfg.dsend w.down v with
          | some d =>
            { msetWorker st i { w with phase := Phase.atCheck, down := d,
                                       sentBy := w.sentBy ++ [v] } with
              queue := rest }
          | none =>
            { msetWorker st i { w with phase := Phase.crashed,
                                       sentBy := w.sentBy ++ [v] } with
              queue := rest }

/-- Producer `send` on the process pool: enqueue the raw value. -/
def mpSend (st : MPoolState α σ) (v : α) : MPoolState α σ :=
  { st with queue := st.queue ++ [v] }

/-- A sequence of producer `send` calls. -/
def mpSendAll (st : MPoolState α σ) (items : List α) : MPoolState α σ :=
  items.foldl mpSend st

/-- Producer `close` on the process pool: enqueue one sentinel per worker and
return, touching nothing else. -/
def mpClose (cfg : MCfg α σ) (st : MPoolState α σ) : MPoolState α σ :=
  { st with queue := st.queue ++ List.replicate st.numProcesses cfg.sentinel }

/-- Run the process pool under an interleaving schedule. -/
def mpRun [DecidableEq α] (cfg : MCfg α σ) (st : MPoolState α σ) (sched : List Nat) :
    MPoolState α σ :=
  sched.foldl (mpStep cfg) st

end MPoolDefs

/-! ### Concrete value universe and configurations used as test inputs -/

/-- Small universe of Python values: integers and the `GeneratorExit` class
object, which the source uses as the sentinel. -/
inductive PyVal : Type
  | int (n : Int)
  | generatorExit
deriving DecidableEq

/-- Recording sink `send`: appends the item, never raises. -/
def recSend (s : List PyVal) (a : PyVal) : Option (List PyVal) :=
  some (s ++ [a])

/-- Recording sink `close`: keeps the record. -/
def recClose (s : List PyVal) : List PyVal :=
  s

/-- Factory building a fresh, empty recording sink on every invocation. -/
def recFactory (_i : Nat) : List PyVal :=
  []

/-- Thread pool over a recording downstream sink. -/
def recordingCfg : Cfg PyVal (List PyVal) :=
  { sentinel := PyVal.generatorExit
    factory := recFactory
    dsend := recSend
    dclose := recClose }

/-- Recording sink whose `send` raises on the item `13`. -/
def failSend (s : List PyVal) (a : PyVal) : Option (List PyVal) :=
  if a = PyVal.int 13 then none else some (s ++ [a])

/-- Thread pool whose downstream `send` raises on the item `13`. -/
def failingCfg : Cfg PyVal (List PyVal) :=
  { sentinel := PyVal.generatorExit
    factory := recFactory
    dsend := failSend
    dclose := recClose }

/-- Process pool over a recording downstream sink. -/
def mrecCfg : MCfg PyVal (List PyVal) :=
  { sentinel := PyVal.generatorExit
    dsend := recSend
    dclose := recClose }

/-- Items 1..10 of the spec's Scenario A. -/
def scenarioAItems : List PyVal :=
  (List.range 10).map (fun k => PyVal.int (k + 1))

/-- Broadcast target behavior that never raises. -/
def behOk (_t : Nat) (_x : Nat) : Except String Unit :=
  Except.ok ()

/-- Broadcast target behavior where target `1` raises. -/
def behFailAt1 (t : Nat) (_x : Nat) : Except String Unit :=
  if t = 1 then Except.error "boom" else Except.ok ()

/-! ### The broken process pool of `src/coroutine.py` (lines 105-142) -/

/-- Attribute names bound by the class body of `multiprocessed` in
`src/coroutine.py`: its methods.  Note `_multiprocess`, not
`_multiprocessed`. -/
def multiprocessedClassAttrs : List String :=
  ["__init__", "_multiprocess", "stop", "send", "close"]

/-- Instance attribute names `__init__` has bound by the time it evaluates
`self._multiprocessed()` on its last line. -/
def multiprocessedInstanceAttrs : List String :=
  ["_stopEvent", "_target", "_num_processes"]

/-- Python error raised by a failed attribute lookup. -/
inductive PyErr : Type
  | attributeError (attr : String)
deriving DecidableEq

/-- Outcome of running `multiprocessed.__init__` from `src/coroutine.py`:
which instance attributes were bound, how many worker processes were started,
and the error it raised, if any. -/
structure InitOutcome : Type where
  attrsSet : List String
  spawned : Nat
  err : Option PyErr
deriving DecidableEq

/-- Embedding of `multiprocessed.__init__` from `src/coroutine.py`: it binds
`_stopEvent`, `_target` and `_num_processes`, then evaluates
`self._multiprocessed()`.  The attribute lookup searches the instance
attributes and the class attributes; only if it resolves does the method body
(which is what creates the queue and starts the processes) run. -/
def multiprocessedInit (numProcesses : Nat) : InitOutcome :=
  if "_multiprocessed" ∈ multiprocessedInstanceAttrs
      ∨ "_multiprocessed" ∈ multiprocessedClassAttrs then
    { attrsSet := multiprocessedInstanceAttrs, spawned := numProcesses, err := none }
  else
    { attrsSet := multiprocessedInstanceAttrs, spawned := 0,
      err := some (PyErr.attributeError "_multiprocessed") }

/-! ### Concrete executions used by witnesses and counterexamples -/

/-- Process pool with two workers over one recording target that was built —
and already received the marker item `99` — before the pool was constructed:
items `1` and `2` are sent, `close` is called, then worker `0` forwards item
`1`, worker `1` forwards item `2`, and each consumes one sentinel. -/
def mpCopyScenario : MPoolState PyVal (List PyVal) :=
  mpRun mrecCfg
    (mpClose mrecCfg (mpSendAll (mpInit 2 [PyVal.int 99]) [PyVal.int 1, PyVal.int 2]))
    [0, 0, 1, 1, 0, 0, 1, 1]

/-- Thread pool where the producer passes the sentinel value `GeneratorExit`
to `send` — `close` is never called — and the single worker checks the flag
and dequeues once. -/
def sentinelSentScenario : PoolState PyVal (List PyVal) :=
  run recordingCfg (threadedSend (threadedInit recordingCfg 1) PyVal.generatorExit) [0, 0]

/-- Thread pool state with one worker blocked inside `messages.get()` on an
empty queue (it has passed its flag check). -/
def blockedWorkerState : PoolState PyVal (List PyVal) :=
  runTargetStep recordingCfg (threadedInit recordingCfg 1) 0

/-- The single worker of `blockedWorkerState`: past its flag check, empty
history, fresh recording sink. -/
def blockedWorker : Worker PyVal (List PyVal) :=
  { phase := Phase.waiting, down := [], sent := [], closes := 0, sentinels := 0 }

/-- Thread pool whose downstream `send` raises on item `13`, after sending
items `13` and `5`, closing, and letting worker `0` pass its first flag
check. -/
def failScenario : PoolState PyVal (List PyVal) :=
  run failingCfg
    (threadedClose failingCfg (threadedSendAll (threadedInit failingCfg 2)
      [PyVal.int 13, PyVal.int 5]))
    [0]

/-- Thread pool state with one worker about to dequeue the ordinary item `7`. -/
def itemHeadState : PoolState PyVal (List PyVal) :=
  run recordingCfg (threadedSendAll (threadedInit recordingCfg 1) [PyVal.int 7]) [0]

/-- Scenario A of the spec: items 1..10, pool size 2, recording sinks; worker
`0` processes all ten items and one sentinel, then worker `1` its sentinel. -/
def scenarioARun : PoolState PyVal (List PyVal) :=
  run recordingCfg
    (threadedClose recordingCfg (threadedSendAll (threadedInit recordingCfg 2) scenarioAItems))
    (List.replicate 22 0 ++ [1, 1])

/-- Scenario C of the spec: pool size 3, zero items sent, immediate close;
each worker checks the flag once and dequeues its sentinel. -/
def scenarioCRun : PoolState PyVal (List PyVal) :=
  run recordingCfg
    (threadedClose recordingCfg (threadedSendAll (threadedInit recordingCfg 3) []))
    [0, 0, 1, 1, 2, 2]

end Coro

namespace Coro

section PoolLemmas

variable {α σ : Type}

/-- An index that resolves in a list is in bounds. -/
theorem getElem?_some_lt {β : Type} {l : List β} {i : Nat} {w : β}
    (h : l[i]? = some w) : i < l.length := by
  by_contra hlt
  rw [List.getElem?_eq_none (Nat.le_of_not_lt hlt)] at h
  cases h

/-- Every worker micro-step either changes nothing or rewrites worker `i` and
possibly pops the queue; in particular it never touches the other workers, the
stop flag or the thread count. -/
theorem runTargetStep_shape [DecidableEq α] (cfg : Cfg α σ) (st : PoolState α σ) (i : Nat) :
    runTargetStep cfg st i = st ∨
    ∃ w q, runTargetStep cfg st i = { setWorker st i w with queue := q } := by
  unfold runTargetStep
  split
  · exact Or.inl rfl
  · split
    · exact Or.inl rfl
    · exact Or.inl rfl
    · split
      · exact Or.inr ⟨_, _, rfl⟩
      · exact Or.inr ⟨_, _, rfl⟩
    · split
      · exact Or.inl rfl
      · split
        · exact Or.inr ⟨_, _, rfl⟩
        · split
          · exact Or.inr ⟨_, _, rfl⟩
          · exact Or.inr ⟨_, _, rfl⟩

/-- Worker micro-steps never change the stop flag. -/
theorem runTargetStep_stopFlag [DecidableEq α] (cfg : Cfg α σ) (st : PoolState α σ) (i : Nat) :
    (runTargetStep cfg st i).stopFlag = st.stopFlag := by
  rcases runTargetStep_shape cfg st i with h | ⟨w, q, h⟩ <;> simp [h, setWorker]

/-- Worker micro-steps never change the recorded thread count. -/
theorem runTargetStep_numThreads [DecidableEq α] (cfg : Cfg α σ) (st : PoolState α σ)
    (i : Nat) : (runTargetStep cfg st i).numThreads = st.numThreads := by
  rcases runTargetStep_shape cfg st i with h | ⟨w, q, h⟩ <;> simp [h, setWorker]

/-- Worker micro-steps never change the number of workers. -/
theorem runTargetStep_length [DecidableEq α] (cfg : Cfg α σ) (st : PoolState α σ)
    (i : Nat) : (runTargetStep cfg st i).workers.length = st.workers.length := by
  rcases runTargetStep_shape cfg st i with h | ⟨w, q, h⟩ <;> simp [h, setWorker]

/-- A micro-step of worker `i` leaves every other worker's state untouched. -/
theorem runTargetStep_workers_ne [DecidableEq α] (cfg : Cfg α σ) (st : PoolState α σ)
    {i j : Nat} (hne : j ≠ i) :
    (runTargetStep cfg st i).workers[j]? = st.workers[j]? := by
  rcases runTargetStep_shape cfg st i with h | ⟨w, q, h⟩
  · rw [h]
  · rw [h]
    exact List.getElem?_set_ne (fun he => hne he.symm)

end PoolLemmas

end Coro

namespace Coro

section BroadcastThms

variable {T α ε : Type}

/-- C4: for a broadcast over `k` targets, if no target raises then `send(item)`
invokes `send(item)` on each of the `k` targets, in construction order,
synchronously before returning: the call trace is exactly the target list. -/
theorem broadcast_send_reaches_all_targets_in_order
    (beh : T → α → Except ε Unit) (targets : List T) (item : α)
    (h : ∀ t ∈ targets, beh t item = Except.ok ()) :
    broadcastSend beh targets item = (Except.ok (), targets) := by
  induction targets with
  | nil => rfl
  | cons t rest ih =>
    have ht : beh t item = Except.ok () := h t (by simp)
    have hr : broadcastSend beh rest item = (Except.ok (), rest) :=
      ih (fun x hx => h x (by simp [hx]))
    simp [broadcastSend, ht, hr]

/-- Witness for C4 at three targets and item `7`. -/
theorem broadcast_send_reaches_all_targets_in_order_witness :
    (∀ t ∈ [0, 1, 2], behOk t 7 = Except.ok ()) ∧
    broadcastSend behOk [0, 1, 2] 7 = (Except.ok (), [0, 1, 2]) :=
  ⟨fun t _ => rfl,
    broadcast_send_reaches_all_targets_in_order behOk [0, 1, 2] 7 (fun t _ => rfl)⟩

/-- C5: if forwarding to some target raises, the targets after it in
construction order are not attempted for that call, and the error propagates
to the broadcast's caller: the result is that error and the trace stops at the
raising target. -/
theorem broadcast_error_skips_rest_and_propagates
    (beh : T → α → Except ε Unit) (pre post : List T) (tf : T) (item : α) (e : ε)
    (hpre : ∀ t ∈ pre, beh t item = Except.ok ()) (hf : beh tf item = Except.error e) :
    broadcastSend beh (pre ++ tf :: post) item = (Except.error e, pre ++ [tf]) := by
  induction pre with
  | nil => simp [broadcastSend, hf]
  | cons t rest ih =>
    have ht : beh t item = Except.ok () := hpre t (by simp)
    have hr := ih (fun x hx => hpre x (by simp [hx]))
    simp [broadcastSend, ht, hr]

/-- Witness for C5: target `1` of `[0, 1, 2]` raises on item `7`; target `2`
is not attempted and the error is the caller's result. -/
theorem broadcast_error_skips_rest_and_propagates_witness :
    (∀ t ∈ [0], behFailAt1 t 7 = Except.ok ()) ∧
    behFailAt1 1 7 = Except.error "boom" ∧
    broadcastSend behFailAt1 ([0] ++ 1 :: [2]) 7 = (Except.error "boom", [0] ++ [1]) :=
  ⟨by intro t ht; simp at ht; subst ht; rfl, rfl,
    broadcast_error_skips_rest_and_propagates behFailAt1 [0] [2] 1 7 "boom"
      (by intro t ht; simp at ht; subst ht; rfl) rfl⟩

end BroadcastThms

section PoolThms

variable {α σ : Type}

/-- C6: on both pools, `close` enqueues exactly one sentinel per worker (`N`
sentinels total, `N` the stored worker count) at the back of the shared queue
and returns at once: no worker state changes, no flag changes, and (for the
process pool) the downstream target is untouched — nothing is waited on. -/
theorem close_enqueues_one_sentinel_per_worker_and_returns [DecidableEq α]
    (cfg : Cfg α σ) (st : PoolState α σ) (mcfg : MCfg α σ) (mst : MPoolState α σ) :
    (threadedClose cfg st).queue = st.queue ++ List.replicate st.numThreads cfg.sentinel
    ∧ (threadedClose cfg st).queue.count cfg.sentinel
        = st.queue.count cfg.sentinel + st.numThreads
    ∧ (threadedClose cfg st).workers = st.workers
    ∧ (threadedClose cfg st).stopFlag = st.stopFlag
    ∧ (mpClose mcfg mst).queue = mst.queue ++ List.replicate mst.numProcesses mcfg.sentinel
    ∧ (mpClose mcfg mst).workers = mst.workers
    ∧ (mpClose mcfg mst).target = mst.target
    ∧ (mpClose mcfg mst).stopFlag = mst.stopFlag := by
  refine ⟨rfl, ?_, rfl, rfl, rfl, rfl, rfl, rfl⟩
  simp [threadedClose, List.count_append]

/-- C10: constructing the process pool of `src/coroutine.py` always raises an
`AttributeError` for `_multiprocessed` (the class only defines
`_multiprocess`) before any process is spawned, for every worker count; hence
no instance exists on which `send` or `close` could run. -/
theorem coroutine_py_multiprocessed_ctor_raises (numProcesses : Nat) :
    (multiprocessedInit numProcesses).err = some (PyErr.attributeError "_multiprocessed")
    ∧ (multiprocessedInit numProcesses).spawned = 0
    ∧ (multiprocessedInit numProcesses).attrsSet = multiprocessedInstanceAttrs := by
  have h : ¬("_multiprocessed" ∈ multiprocessedInstanceAttrs
      ∨ "_multiprocessed" ∈ multiprocessedClassAttrs) := by decide
  simp [multiprocessedInit, h]

end PoolThms

end Coro

namespace Coro

section StepCharacterization

variable {α σ : Type} [DecidableEq α]

/-- A step of a nonexistent worker does nothing. -/
theorem step_none (cfg : Cfg α σ) {st : PoolState α σ} {i : Nat}
    (hw : st.workers[i]? = none) : runTargetStep cfg st i = st := by
  simp only [runTargetStep, hw]

/-- A terminated worker has no further steps. -/
theorem step_done (cfg : Cfg α σ) {st : PoolState α σ} {i : Nat} {w : Worker α σ}
    (hw : st.workers[i]? = some w) (hph : w.phase = Phase.done) :
    runTargetStep cfg st i = st := by
  simp only [runTargetStep, hw, hph]

/-- A crashed worker has no further steps. -/
theorem step_crashed (cfg : Cfg α σ) {st : PoolState α σ} {i : Nat} {w : Worker α σ}
    (hw : st.workers[i]? = some w) (hph : w.phase = Phase.crashed) :
    runTargetStep cfg st i = st := by
  simp only [runTargetStep, hw, hph]

/-- With the flag unset, the top-of-loop check passes and the worker enters
`messages.get()`. -/
theorem step_atCheck_go (cfg : Cfg α σ) {st : PoolState α σ} {i : Nat} {w : Worker α σ}
    (hw : st.workers[i]? = some w) (hph : w.phase = Phase.atCheck)
    (hf : st.stopFlag = false) :
    runTargetStep cfg st i = setWorker st i { w with phase := Phase.waiting } := by
  simp only [runTargetStep, hw, hph, hf, Bool.false_eq_true, if_false]

/-- With the flag set, the top-of-loop check fails: the loop exits and the
worker closes its private downstream stage. -/
theorem step_atCheck_stop (cfg : Cfg α σ) {st : PoolState α σ} {i : Nat} {w : Worker α σ}
    (hw : st.workers[i]? = some w) (hph : w.phase = Phase.atCheck)
    (hf : st.stopFlag = true) :
    runTargetStep cfg st i =
      setWorker st i { w with phase := Phase.done, down := cfg.dclose w.down,
                              closes := w.closes + 1 } := by
  simp only [runTargetStep, hw, hph, hf, if_true]

/-- A worker inside `messages.get()` on an empty queue is blocked: no state
change, whatever the stop flag is. -/
theorem step_waiting_empty (cfg : Cfg α σ) {st : PoolState α σ} {i : Nat} {w : Worker α σ}
    (hw : st.workers[i]? = some w) (hph : w.phase = Phase.waiting)
    (hq : st.queue = []) : runTargetStep cfg st i = st := by
  simp only [runTargetStep, hw, hph, hq]

/-- Dequeuing the sentinel breaks the loop: the worker closes its private
downstream stage and terminates, having consumed one sentinel. -/
theorem step_waiting_sentinel (cfg : Cfg α σ) {st : PoolState α σ} {i : Nat}
    {w : Worker α σ} {v : α} {rest : List α}
    (hw : st.workers[i]? = some w) (hph : w.phase = Phase.waiting)
    (hq : st.queue = v :: rest) (hv : v = cfg.sentinel) :
    runTargetStep cfg st i =
      { setWorker st i { w with phase := Phase.done, down := cfg.dclose w.down,
                                closes := w.closes + 1, sentinels := w.sentinels + 1 } with
        queue := rest } := by
  simp only [runTargetStep, hw, hph, hq, hv, if_true]

/-- Dequeuing an ordinary item forwards it downstream; on success the worker
returns to the top of the loop. -/
theorem step_waiting_send (cfg : Cfg α σ) {st : PoolState α σ} {i : Nat}
    {w : Worker α σ} {v : α} {rest : List α} {d : σ}
    (hw : st.workers[i]? = some w) (hph : w.phase = Phase.waiting)
    (hq : st.queue = v :: rest) (hv : ¬v = cfg.sentinel)
    (hd : cfg.dsend w.down v = some d) :
    runTargetStep cfg st i =
      { setWorker st i { w with phase := Phase.atCheck, down := d,
                                sent := w.sent ++ [v] } with
        queue := rest } := by
  simp only [runTargetStep, hw, hph, hq, hv, if_false, hd]

/-- Dequeuing an ordinary item whose downstream `send` raises kills the
worker: the exception propagates out of `run_target`, skipping
`target.close()`. -/
theorem step_waiting_fail (cfg : Cfg α σ) {st : PoolState α σ} {i : Nat}
    {w : Worker α σ} {v : α} {rest : List α}
    (hw : st.workers[i]? = some w) (hph : w.phase = Phase.waiting)
    (hq : st.queue = v :: rest) (hv : ¬v = cfg.sentinel)
    (hd : cfg.dsend w.down v = none) :
    runTargetStep cfg st i =
      { setWorker st i { w with phase := Phase.crashed, sent := w.sent ++ [v] } with
        queue := rest } := by
  simp only [runTargetStep, hw, hph, hq, hv, if_false, hd]

/-- Reading back the worker just written. -/
theorem setWorker_get_self {st : PoolState α σ} {i : Nat} (w : Worker α σ)
    (h : i < st.workers.length) : (setWorker st i w).workers[i]? = some w := by
  simp only [setWorker]
  exact List.getElem?_set_eq_of_lt w h

end StepCharacterization

end Coro

namespace Coro

section ClaimC1

variable {α σ : Type}

/-- Every process-pool worker micro-step either changes nothing or rewrites
worker `i` and possibly pops the queue; other workers, the parent's target
reference, the stop flag and the process count are never touched. -/
theorem mpStep_shape [DecidableEq α] (cfg : MCfg α σ) (st : MPoolState α σ) (i : Nat) :
    mpStep cfg st i = st ∨
    ∃ w q, mpStep cfg st i = { msetWorker st i w with queue := q } := by
  unfold mpStep
  split
  · exact Or.inl rfl
  · split
    · exact Or.inl rfl
    · exact Or.inl rfl
    · split
      · exact Or.inr ⟨_, _, rfl⟩
      · exact Or.inr ⟨_, _, rfl⟩
    · split
      · exact Or.inl rfl
      · split
        · exact Or.inr ⟨_, _, rfl⟩
        · split
          · exact Or.inr ⟨_, _, rfl⟩
          · exact Or.inr ⟨_, _, rfl⟩

/-- Process isolation in the model: a micro-step of worker `i` leaves every
other worker's state — its private fork copy included — untouched. -/
theorem mpStep_workers_ne [DecidableEq α] (cfg : MCfg α σ) (st : MPoolState α σ)
    {i j : Nat} (hne : j ≠ i) :
    (mpStep cfg st i).workers[j]? = st.workers[j]? := by
  rcases mpStep_shape cfg st i with h | ⟨w, q, h⟩
  · rw [h]
  · rw [h]
    exact List.getElem?_set_ne (fun he => hne he.symm)

/-- A micro-step of a process-pool worker never touches the parent process's
stored target reference. -/
theorem mpStep_target [DecidableEq α] (cfg : MCfg α σ) (st : MPoolState α σ) (i : Nat) :
    (mpStep cfg st i).target = st.target := by
  rcases mpStep_shape cfg st i with h | ⟨w, q, h⟩ <;> simp [h, msetWorker]

/-- C1 (amended): in the thread-backed pool each of the `N` workers obtains
its own private downstream stage by invoking the downstream-stage factory
once — `N` invocations, one per worker — and a micro-step of one worker never
touches another worker's state, downstream stage included.  The process-backed
pool of `src/__init__.py` performs no factory invocation at all: its
constructor receives one already-built target coroutine, and, because the
worker processes are forked, each worker starts from — and privately advances
and closes — its own copy of that single pre-built instance (so its stage is a
fork copy of a shared origin, not a fresh per-worker factory product), while
the parent's stored reference stays untouched. -/
theorem factory_once_per_worker_threaded_only [DecidableEq α]
    (cfg : Cfg α σ) (n : Nat) (st : PoolState α σ) (i j : Nat) (hne : j ≠ i)
    (mcfg : MCfg α σ) (mst : MPoolState α σ) (t : σ) (m : Nat) :
    (threadedInit cfg n).workers.map Worker.down = (List.range n).map cfg.factory
    ∧ (threadedInit cfg n).workers.length = n
    ∧ (runTargetStep cfg st i).workers[j]? = st.workers[j]?
    ∧ (mpInit m t : MPoolState α σ).workers.map MWorker.down = List.replicate m t
    ∧ (mpInit m t : MPoolState α σ).target = t
    ∧ (mpStep mcfg mst i).workers[j]? = mst.workers[j]?
    ∧ (mpStep mcfg mst i).target = mst.target := by
  refine ⟨?_, by simp [threadedInit], runTargetStep_workers_ne cfg st hne, ?_, rfl,
    mpStep_workers_ne mcfg mst hne, mpStep_target mcfg mst i⟩
  · simp only [threadedInit, List.map_map]
    rfl
  · simp [mpInit, List.map_replicate]

/-- Witness for C1 (amended) on the recording configurations, two workers,
with the process pool's target pre-loaded with the marker item `99`. -/
theorem factory_once_per_worker_threaded_only_witness :
    (1 : Nat) ≠ 0
    ∧ ((threadedInit recordingCfg 2).workers.map Worker.down
        = (List.range 2).map recordingCfg.factory
      ∧ (threadedInit recordingCfg 2).workers.length = 2
      ∧ (runTargetStep recordingCfg (threadedInit recordingCfg 2) 0).workers[1]?
          = (threadedInit recordingCfg 2).workers[1]?
      ∧ (mpInit 2 [PyVal.int 99] : MPoolState PyVal (List PyVal)).workers.map MWorker.down
          = List.replicate 2 [PyVal.int 99]
      ∧ (mpInit 2 [PyVal.int 99] : MPoolState PyVal (List PyVal)).target = [PyVal.int 99]
      ∧ (mpStep mrecCfg (mpInit 2 [PyVal.int 99]) 0).workers[1]?
          = (mpInit 2 [PyVal.int 99] : MPoolState PyVal (List PyVal)).workers[1]?
      ∧ (mpStep mrecCfg (mpInit 2 [PyVal.int 99]) 0).target
          = (mpInit 2 [PyVal.int 99] : MPoolState PyVal (List PyVal)).target) :=
  ⟨by decide,
    factory_once_per_worker_threaded_only recordingCfg 2 (threadedInit recordingCfg 2) 0 1
      (by decide) mrecCfg (mpInit 2 [PyVal.int 99] : MPoolState PyVal (List PyVal))
      [PyVal.int 99] 2⟩

/-- C1 counterexample: the process-backed pool of `src/__init__.py` receives
a target that was built — and already received the marker item `99` — before
the pool existed.  At pool construction both workers' private downstream
stages already contain that marker (`[99]` each): no zero-argument factory
invocation at construction time could have produced them, and the claimed `N`
per-worker factory invocations never happen — there is no factory to invoke.
Running the pool shows each worker privately extending and closing its own
copy of that one pre-built instance: worker `0` ends with `[99, 1]`, worker
`1` with `[99, 2]`, each having forwarded one item and closed its copy once. -/
theorem mp_workers_get_copies_not_factory_products :
    (mpInit 2 [PyVal.int 99] : MPoolState PyVal (List PyVal)).workers.map MWorker.down
      = [[PyVal.int 99], [PyVal.int 99]]
    ∧ mpCopyScenario.workers.map MWorker.down
      = [[PyVal.int 99, PyVal.int 1], [PyVal.int 99, PyVal.int 2]]
    ∧ mpCopyScenario.workers.map MWorker.sentBy = [[PyVal.int 1], [PyVal.int 2]]
    ∧ mpCopyScenario.workers.map MWorker.closes = [1, 1]
    ∧ mpCopyScenario.target = [PyVal.int 99] := by
  decide

end ClaimC1

section ClaimC789

variable {α σ : Type} [DecidableEq α]

/-- C7: `stop()` only sets the cooperative flag.  A worker reads the flag
exactly once per dequeue cycle, at the top of its loop before blocking: a
worker already inside `messages.get()` on an empty queue takes no step —
it does not terminate — even with the flag set, and its pending dequeue is
entirely independent of the flag (the step commutes with `stop`); a new queue
entry re-enables it.  A worker at the top of its loop with the flag set exits
and closes its downstream stage. -/
theorem stop_flag_checked_once_per_cycle (cfg : Cfg α σ)
    (st : PoolState α σ) (i : Nat) (w : Worker α σ) (v : α)
    (hw : st.workers[i]? = some w) :
    ((threadedStop st).queue = st.queue ∧ (threadedStop st).workers = st.workers
      ∧ (threadedStop st).stopFlag = true)
    ∧ (w.phase = Phase.waiting → st.queue = [] →
        runTargetStep cfg (threadedStop st) i = threadedStop st)
    ∧ (w.phase = Phase.waiting →
        runTargetStep cfg (threadedStop st) i = threadedStop (runTargetStep cfg st i))
    ∧ (w.phase = Phase.waiting → st.queue = [] → enabled (threadedSend st v) i = true)
    ∧ (w.phase = Phase.atCheck → st.stopFlag = true →
        (runTargetStep cfg st i).workers[i]? =
          some { w with phase := Phase.done, down := cfg.dclose w.down,
                        closes := w.closes + 1 }) := by
  have hw' : (threadedStop st).workers[i]? = some w := hw
  refine ⟨⟨rfl, rfl, rfl⟩, ?_, ?_, ?_, ?_⟩
  · intro hph hq
    exact step_waiting_empty cfg hw' hph hq
  · intro hph
    cases hq : st.queue with
    | nil =>
      rw [step_waiting_empty cfg hw' hph hq, step_waiting_empty cfg hw hph hq]
    | cons v' rest =>
      by_cases hv : v' = cfg.sentinel
      · rw [step_waiting_sentinel cfg hw' hph hq hv, step_waiting_sentinel cfg hw hph hq hv]
        rfl
      · cases hd : cfg.dsend w.down v' with
        | some d =>
          rw [step_waiting_send cfg hw' hph hq hv hd, step_waiting_send cfg hw hph hq hv hd]
          rfl
        | none =>
          rw [step_waiting_fail cfg hw' hph hq hv hd, step_waiting_fail cfg hw hph hq hv hd]
          rfl
  · intro hph hq
    simp [enabled, threadedSend, hw, hph, hq]
  · intro hph hf
    rw [step_atCheck_stop cfg hw hph hf]
    exact setWorker_get_self _ (getElem?_some_lt hw)

/-- Witness for C7: a pool with one worker blocked on the empty queue. -/
theorem stop_flag_checked_once_per_cycle_witness :
    blockedWorkerState.workers[0]? = some blockedWorker
    ∧ (((threadedStop blockedWorkerState).queue = blockedWorkerState.queue
        ∧ (threadedStop blockedWorkerState).workers = blockedWorkerState.workers
        ∧ (threadedStop blockedWorkerState).stopFlag = true)
      ∧ (blockedWorker.phase = Phase.waiting → blockedWorkerState.queue = [] →
          runTargetStep recordingCfg (threadedStop blockedWorkerState) 0
            = threadedStop blockedWorkerState)
      ∧ (blockedWorker.phase = Phase.waiting →
          runTargetStep recordingCfg (threadedStop blockedWorkerState) 0
            = threadedStop (runTargetStep recordingCfg blockedWorkerState 0))
      ∧ (blockedWorker.phase = Phase.waiting → blockedWorkerState.queue = [] →
          enabled (threadedSend blockedWorkerState (PyVal.int 3)) 0 = true)
      ∧ (blockedWorker.phase = Phase.atCheck → blockedWorkerState.stopFlag = true →
          (runTargetStep recordingCfg blockedWorkerState 0).workers[0]? =
            some { blockedWorker with phase := Phase.done,
                                      down := recordingCfg.dclose blockedWorker.down,
                                      closes := blockedWorker.closes + 1 })) :=
  ⟨by decide,
    stop_flag_checked_once_per_cycle recordingCfg blockedWorkerState 0 blockedWorker
      (PyVal.int 3) (by decide)⟩

end ClaimC789

end Coro

namespace Coro

section ClaimC8C9

variable {α σ : Type} [DecidableEq α]

/-- C8: if a worker's private downstream `send` raises while forwarding an
item, the pool does not catch it: that worker terminates abnormally (it
crashes without closing its downstream stage — `closes` stays as it was), no
other worker's state changes, no flag or signal reaches the producer, and the
crashed worker never steps again, so the pool silently continues with one
worker's capacity lost. -/
theorem downstream_error_kills_worker_silently (cfg : Cfg α σ)
    (st : PoolState α σ) (i : Nat) (w : Worker α σ) (v : α) (rest : List α)
    (hw : st.workers[i]? = some w) (hph : w.phase = Phase.waiting)
    (hq : st.queue = v :: rest) (hv : ¬v = cfg.sentinel)
    (hfail : cfg.dsend w.down v = none) :
    (runTargetStep cfg st i).workers[i]?
        = some { w with phase := Phase.crashed, sent := w.sent ++ [v] }
    ∧ (∀ j, ¬j = i → (runTargetStep cfg st i).workers[j]? = st.workers[j]?)
    ∧ (runTargetStep cfg st i).queue = rest
    ∧ (runTargetStep cfg st i).stopFlag = st.stopFlag
    ∧ runTargetStep cfg (runTargetStep cfg st i) i = runTargetStep cfg st i := by
  have hstep := step_waiting_fail cfg hw hph hq hv hfail
  have hlt : i < st.workers.length := getElem?_some_lt hw
  have hw2 : (runTargetStep cfg st i).workers[i]?
      = some { w with phase := Phase.crashed, sent := w.sent ++ [v] } := by
    rw [hstep]
    simp only [setWorker]
    exact List.getElem?_set_eq_of_lt _ hlt
  refine ⟨hw2, ?_, by rw [hstep], runTargetStep_stopFlag cfg st i, ?_⟩
  · intro j hj
    exact runTargetStep_workers_ne cfg st hj
  · exact step_crashed cfg hw2 rfl

/-- Witness for C8: pool whose downstream raises on item `13`, worker `0`
about to dequeue that item. -/
theorem downstream_error_kills_worker_silently_witness :
    failScenario.workers[0]? = some blockedWorker
    ∧ blockedWorker.phase = Phase.waiting
    ∧ failScenario.queue
        = PyVal.int 13 :: [PyVal.int 5, PyVal.generatorExit, PyVal.generatorExit]
    ∧ ¬PyVal.int 13 = failingCfg.sentinel
    ∧ failingCfg.dsend blockedWorker.down (PyVal.int 13) = none
    ∧ ((runTargetStep failingCfg failScenario 0).workers[0]?
        = some { blockedWorker with phase := Phase.crashed,
                                    sent := blockedWorker.sent ++ [PyVal.int 13] }
      ∧ (∀ j, ¬j = 0 →
          (runTargetStep failingCfg failScenario 0).workers[j]? = failScenario.workers[j]?)
      ∧ (runTargetStep failingCfg failScenario 0).queue
          = [PyVal.int 5, PyVal.generatorExit, PyVal.generatorExit]
      ∧ (runTargetStep failingCfg failScenario 0).stopFlag = failScenario.stopFlag
      ∧ runTargetStep failingCfg (runTargetStep failingCfg failScenario 0) 0
          = runTargetStep failingCfg failScenario 0) :=
  ⟨by decide, by decide, by decide, by decide, by decide,
    downstream_error_kills_worker_silently failingCfg failScenario 0 blockedWorker
      (PyVal.int 13) [PyVal.int 5, PyVal.generatorExit, PyVal.generatorExit]
      (by decide) (by decide) (by decide) (by decide) (by decide)⟩

/-- C9 (amended): a worker classifies a dequeued entry as the sentinel exactly
when the entry equals the `GeneratorExit` value.  Dequeuing any other value
never terminates the worker and never adds a sentinel consumption or a
downstream close; dequeuing the sentinel value terminates it and closes its
downstream — and since the pool's `send` enqueues raw values unchecked, this
applies equally to a sentinel value passed by the producer to `send`, not only
to the sentinels enqueued by `close`. -/
theorem only_sentinel_value_terminates (cfg : Cfg α σ)
    (st : PoolState α σ) (i : Nat) (w : Worker α σ) (v : α) (rest : List α)
    (hw : st.workers[i]? = some w) (hph : w.phase = Phase.waiting)
    (hq : st.queue = v :: rest) :
    (¬v = cfg.sentinel → ∀ w2, (runTargetStep cfg st i).workers[i]? = some w2 →
        w2.sentinels = w.sentinels ∧ w2.closes = w.closes ∧ ¬w2.phase = Phase.done)
    ∧ (v = cfg.sentinel → (runTargetStep cfg st i).workers[i]?
        = some { w with phase := Phase.done, down := cfg.dclose w.down,
                        closes := w.closes + 1, sentinels := w.sentinels + 1 })
    ∧ (threadedSend st v).queue = st.queue ++ [v] := by
  have hlt : i < st.workers.length := getElem?_some_lt hw
  refine ⟨?_, ?_, rfl⟩
  · intro hv w2 hw2
    cases hd : cfg.dsend w.down v with
    | some d =>
      rw [step_waiting_send cfg hw hph hq hv hd] at hw2
      simp only [setWorker, List.getElem?_set_eq_of_lt _ hlt] at hw2
      cases hw2
      simp
    | none =>
      rw [step_waiting_fail cfg hw hph hq hv hd] at hw2
      simp only [setWorker, List.getElem?_set_eq_of_lt _ hlt] at hw2
      cases hw2
      simp
  · intro hv
    rw [step_waiting_sentinel cfg hw hph hq hv]
    simp only [setWorker]
    exact List.getElem?_set_eq_of_lt _ hlt

/-- Witness for C9 (amended): one worker about to dequeue the ordinary item
`7`. -/
theorem only_sentinel_value_terminates_witness :
    itemHeadState.workers[0]? = some blockedWorker
    ∧ blockedWorker.phase = Phase.waiting
    ∧ itemHeadState.queue = PyVal.int 7 :: []
    ∧ ((¬PyVal.int 7 = recordingCfg.sentinel →
        ∀ w2, (runTargetStep recordingCfg itemHeadState 0).workers[0]? = some w2 →
          w2.sentinels = blockedWorker.sentinels ∧ w2.closes = blockedWorker.closes
            ∧ ¬w2.phase = Phase.done)
      ∧ (PyVal.int 7 = recordingCfg.sentinel →
          (runTargetStep recordingCfg itemHeadState 0).workers[0]?
            = some { blockedWorker with phase := Phase.done,
                                        down := recordingCfg.dclose blockedWorker.down,
                                        closes := blockedWorker.closes + 1,
                                        sentinels := blockedWorker.sentinels + 1 })
      ∧ (threadedSend itemHeadState (PyVal.int 7)).queue
          = itemHeadState.queue ++ [PyVal.int 7]) :=
  ⟨by decide, by decide, by decide,
    only_sentinel_value_terminates recordingCfg itemHeadState 0 blockedWorker
      (PyVal.int 7) [] (by decide) (by decide) (by decide)⟩

/-- C9 counterexample: the producer passes the value `GeneratorExit` to the
pool's `send` and never calls `close`, yet the single worker classifies the
dequeued value as the sentinel: it terminates with one sentinel consumed and
closes its downstream stage.  So a value passed to `send` can be classified
as the sentinel and terminate a worker. -/
theorem sent_generator_exit_acts_as_sentinel :
    sentinelSentScenario.workers
      = [{ phase := Phase.done, down := [], sent := [], closes := 1, sentinels := 1 }]
    ∧ sentinelSentScenario.queue = [] := by
  decide

end ClaimC8C9

end Coro

namespace Coro

section InvariantHelpers

variable {α σ : Type} [DecidableEq α]

/-- Sending a list of items appends them to the queue and changes nothing
else. -/
theorem sendAll_eq (st : PoolState α σ) (items : List α) :
    threadedSendAll st items = { st with queue := st.queue ++ items } := by
  induction items generalizing st with
  | nil => simp [threadedSendAll]
  | cons a rest ih =>
    have h1 : threadedSendAll st (a :: rest) = threadedSendAll (threadedSend st a) rest := rfl
    rw [h1, ih]
    simp [threadedSend]

/-- The pool state reached by constructing, sending `items`, and closing:
queue `items ++ n` sentinels, `n` fresh workers, flag unset. -/
theorem initClose_eq (cfg : Cfg α σ) (items : List α) (n : Nat) :
    threadedClose cfg (threadedSendAll (threadedInit cfg n) items)
      = { queue := items ++ List.replicate n cfg.sentinel
          workers := (List.range n).map (fun i => freshWorker (cfg.factory i))
          stopFlag := false
          numThreads := n } := by
  rw [sendAll_eq]
  simp [threadedClose, threadedInit]

/-- Fresh workers satisfy the per-worker invariant. -/
theorem winv_fresh (d : σ) : WInv (freshWorker d : Worker α σ) := by
  refine ⟨?_, ?_, ?_⟩ <;> simp [freshWorker, WInv]

/-- Exchanging one element of a list changes `countP` by the difference of the
predicate on the old and new elements. -/
theorem countP_set_exchange {β : Type} (p : β → Bool) :
    ∀ (l : List β) (i : Nat) (w w2 : β), l[i]? = some w →
      (l.set i w2).countP p + (if p w then 1 else 0)
        = l.countP p + (if p w2 then 1 else 0)
  | [], i, w, w2, h => by simp at h
  | a :: l, 0, w, w2, h => by
    simp at h
    subst h
    simp [List.countP_cons]
    omega
  | a :: l, i + 1, w, w2, h => by
    simp at h
    have hrec := countP_set_exchange p l i w w2 h
    simp [List.set, List.countP_cons]
    omega

/-- Replacing a worker by one with the same `sent` trace leaves the map of
traces unchanged. -/
theorem map_sent_set_eq :
    ∀ (l : List (Worker α σ)) (i : Nat) (w w2 : Worker α σ),
      l[i]? = some w → w2.sent = w.sent →
      (l.set i w2).map Worker.sent = l.map Worker.sent
  | [], _, _, _, h, _ => by simp at h
  | a :: l, 0, w, w2, h, hs => by
    simp at h
    subst h
    simp [List.set, hs]
  | a :: l, i + 1, w, w2, h, hs => by
    simp at h
    simp [List.set, map_sent_set_eq l i w w2 h hs]

/-- Appending one element to the `i`-th block of a nested list permutes its
flattening to a cons. -/
theorem flatten_set_append_perm {β : Type} :
    ∀ (L : List (List β)) (i : Nat) (xs : List β) (x : β), L[i]? = some xs →
      List.Perm ((L.set i (xs ++ [x])).flatten) (x :: L.flatten)
  | [], _, _, _, h => by simp at h
  | a :: L, 0, xs, x, h => by
    simp at h
    subst h
    simp only [List.set, List.flatten_cons, List.append_assoc]
    exact List.perm_middle
  | a :: L, i + 1, xs, x, h => by
    simp at h
    have ih := flatten_set_append_perm L i xs x h
    simp only [List.set, List.flatten_cons]
    exact (ih.append_left a).trans List.perm_middle

/-- Filtering out the sentinel distributes over append. -/
theorem nonSentinel_append (cfg : Cfg α σ) (l1 l2 : List α) :
    nonSentinel cfg (l1 ++ l2) = nonSentinel cfg l1 ++ nonSentinel cfg l2 :=
  List.filter_append ..

/-- A sentinel-free list is unchanged by the filter. -/
theorem nonSentinel_eq_self (cfg : Cfg α σ) {l : List α}
    (h : ∀ a ∈ l, ¬a = cfg.sentinel) : nonSentinel cfg l = l := by
  unfold nonSentinel
  rw [List.filter_eq_self]
  intro a ha
  simp [h a ha]

/-- Filtering the sentinel out of a block of sentinels gives nothing. -/
theorem nonSentinel_replicate (cfg : Cfg α σ) (n : Nat) :
    nonSentinel cfg (List.replicate n cfg.sentinel) = [] := by
  unfold nonSentinel
  rw [List.filter_eq_nil_iff]
  intro a ha
  simp [List.eq_of_mem_replicate ha]

/-- Dequeuing the sentinel does not change the filtered queue. -/
theorem nonSentinel_cons_sent (cfg : Cfg α σ) {v : α} (rest : List α)
    (hv : v = cfg.sentinel) :
    nonSentinel cfg (v :: rest) = nonSentinel cfg rest := by
  simp [nonSentinel, hv]

/-- Dequeuing an ordinary item pops it off the filtered queue. -/
theorem nonSentinel_cons_ne (cfg : Cfg α σ) {v : α} (rest : List α)
    (hv : ¬v = cfg.sentinel) :
    nonSentinel cfg (v :: rest) = v :: nonSentinel cfg rest := by
  simp [nonSentinel, hv]

/-- A list whose blocks are all empty flattens to nothing. -/
theorem flatten_nil_of_all {β : Type} {L : List (List β)} (h : ∀ l ∈ L, l = []) :
    L.flatten = [] := by
  induction L with
  | nil => rfl
  | cons a L ih =>
    simp [h a (by simp), ih (fun l hl => h l (by simp [hl]))]

end InvariantHelpers

end Coro

namespace Coro

section InvariantMain

variable {α σ : Type} [DecidableEq α]

/-- The invariant holds right after constructing the pool, sending `items`
(none equal to the sentinel) and calling `close`. -/
theorem inv_init (cfg : Cfg α σ) (items : List α) (n : Nat)
    (hitems : ∀ a ∈ items, ¬a = cfg.sentinel) :
    Inv cfg items n (threadedClose cfg (threadedSendAll (threadedInit cfg n) items)) := by
  rw [initClose_eq]
  have hall : ∀ w ∈ (List.range n).map (fun i => (freshWorker (cfg.factory i) : Worker α σ)),
      Worker.alive w = true := by
    intro w hw
    simp only [List.mem_map] at hw
    obtain ⟨i, _, rfl⟩ := hw
    rfl
  refine { wlen := ?_, flag := rfl, sfx := List.suffix_refl _, scount := ?_,
           winv := ?_, perm := ?_ }
  · simp
  · rw [List.count_append]
    have h1 : items.count cfg.sentinel = 0 :=
      List.count_eq_zero.mpr (fun hmem => hitems _ hmem rfl)
    have h2 := List.count_replicate_self cfg.sentinel n
    show _ = aliveCount _
    unfold aliveCount
    rw [List.countP_eq_length.mpr hall]
    simp [h1, h2]
  · intro w hw
    simp only [List.mem_map] at hw
    obtain ⟨i, _, rfl⟩ := hw
    exact winv_fresh _
  · show List.Perm (nonSentinel cfg (items ++ List.replicate n cfg.sentinel) ++ _) items
    rw [nonSentinel_append, nonSentinel_eq_self cfg hitems, nonSentinel_replicate]
    rw [flatten_nil_of_all (by
      intro l hl
      simp only [List.map_map, List.mem_map] at hl
      obtain ⟨i, _, rfl⟩ := hl
      rfl)]
    simp

/-- One worker micro-step preserves the invariant, provided the downstream
`send` never raises. -/
theorem inv_step (cfg : Cfg α σ) {items : List α} {n : Nat}
    (hok : ∀ d a, (cfg.dsend d a).isSome = true)
    {st : PoolState α σ} (hInv : Inv cfg items n st) (i : Nat) :
    Inv cfg items n (runTargetStep cfg st i) := by
  cases hw : st.workers[i]? with
  | none => rw [step_none cfg hw]; exact hInv
  | some w =>
    have hwmem : w ∈ st.workers := List.getElem?_mem hw
    have hwi := hInv.winv w hwmem
    cases hph : w.phase with
    | done => rw [step_done cfg hw hph]; exact hInv
    | crashed => exact absurd hph hwi.2.2
    | atCheck =>
      have h0 : w.closes = 0 ∧ w.sentinels = 0 := hwi.2.1 (by rw [hph]; simp)
      rw [step_atCheck_go cfg hw hph hInv.flag]
      have hex := countP_set_exchange Worker.alive st.workers i w { w with phase := Phase.waiting } hw
      have ha1 : Worker.alive w = true := by simp [Worker.alive, hph]
      have ha2 : Worker.alive { w with phase := Phase.waiting } = true := rfl
      rw [ha1, ha2] at hex
      refine { wlen := ?_, flag := hInv.flag, sfx := hInv.sfx, scount := ?_, winv := ?_, perm := ?_ }
      · simp [setWorker, hInv.wlen]
      · have hc := hInv.scount
        unfold aliveCount at hc ⊢
        simp only [setWorker]
        simp at hex
        omega
      · intro w2 hw2
        simp only [setWorker] at hw2
        rcases List.mem_or_eq_of_mem_set hw2 with h | rfl
        · exact hInv.winv w2 h
        · exact ⟨fun h => absurd h (by simp), fun _ => ⟨h0.1, h0.2⟩, by simp⟩
      · simp only [setWorker]
        rw [map_sent_set_eq st.workers i w { w with phase := Phase.waiting } hw rfl]
        exact hInv.perm
    | waiting =>
      have h0 : w.closes = 0 ∧ w.sentinels = 0 := hwi.2.1 (by rw [hph]; simp)
      cases hq : st.queue with
      | nil => rw [step_waiting_empty cfg hw hph hq]; exact hInv
      | cons v rest =>
        by_cases hv : v = cfg.sentinel
        · subst hv
          rw [step_waiting_sentinel cfg hw hph hq rfl]
          have hex := countP_set_exchange Worker.alive st.workers i w { w with phase := Phase.done, down := cfg.dclose w.down, closes := w.closes + 1, sentinels := w.sentinels + 1 } hw
          have ha1 : Worker.alive w = true := by simp [Worker.alive, hph]
          have ha2 : Worker.alive { w with phase := Phase.done, down := cfg.dclose w.down, closes := w.closes + 1, sentinels := w.sentinels + 1 } = false := rfl
          rw [ha1, ha2] at hex
          refine { wlen := ?_, flag := hInv.flag, sfx := ?_, scount := ?_, winv := ?_, perm := ?_ }
          · simp [setWorker, hInv.wlen]
          · have hsfx := hInv.sfx
            rw [hq] at hsfx
            exact (List.suffix_cons cfg.sentinel rest).trans hsfx
          · have hc := hInv.scount
            rw [hq, List.count_cons_self] at hc
            unfold aliveCount at hc ⊢
            simp only [setWorker]
            simp at hex
            omega
          · intro w2 hw2
            simp only [setWorker] at hw2
            rcases List.mem_or_eq_of_mem_set hw2 with h | rfl
            · exact hInv.winv w2 h
            · exact ⟨fun _ => by simp [h0.1, h0.2], fun h => absurd rfl h, by simp⟩
          · have hp := hInv.perm
            rw [hq, nonSentinel_cons_sent cfg rest rfl] at hp
            simp only [setWorker]
            rw [map_sent_set_eq st.workers i w { w with phase := Phase.done, down := cfg.dclose w.down, closes := w.closes + 1, sentinels := w.sentinels + 1 } hw rfl]
            exact hp
        · cases hd : cfg.dsend w.down v with
          | none =>
            have hsome := hok w.down v
            rw [hd] at hsome
            simp at hsome
          | some d =>
            rw [step_waiting_send cfg hw hph hq hv hd]
            have hex := countP_set_exchange Worker.alive st.workers i w { w with phase := Phase.atCheck, down := d, sent := w.sent ++ [v] } hw
            have ha1 : Worker.alive w = true := by simp [Worker.alive, hph]
            have ha2 : Worker.alive { w with phase := Phase.atCheck, down := d, sent := w.sent ++ [v] } = true := rfl
            rw [ha1, ha2] at hex
            refine { wlen := ?_, flag := hInv.flag, sfx := ?_, scount := ?_, winv := ?_, perm := ?_ }
            · simp [setWorker, hInv.wlen]
            · have hsfx := hInv.sfx
              rw [hq] at hsfx
              exact (List.suffix_cons v rest).trans hsfx
            · have hc := hInv.scount
              rw [hq, List.count_cons] at hc
              have hbv : (v == cfg.sentinel) = false := by simp [hv]
              rw [hbv] at hc
              unfold aliveCount at hc ⊢
              simp only [setWorker]
              simp at hex
              simp at hc
              omega
            · intro w2 hw2
              simp only [setWorker] at hw2
              rcases List.mem_or_eq_of_mem_set hw2 with h | rfl
              · exact hInv.winv w2 h
              · exact ⟨fun h => absurd h (by simp), fun _ => ⟨h0.1, h0.2⟩, by simp⟩
            · have hp := hInv.perm
              rw [hq, nonSentinel_cons_ne cfg rest hv] at hp
              have hmi : (st.workers.map Worker.sent)[i]? = some w.sent := by
                rw [List.getElem?_map, hw]
                rfl
              have hflat := flatten_set_append_perm (st.workers.map Worker.sent) i w.sent v hmi
              simp only [setWorker]
              rw [List.map_set]
              show List.Perm (nonSentinel cfg rest ++ _) items
              refine ((List.Perm.append_left _ hflat).trans List.perm_middle).trans ?_
              exact hp

/-- The invariant is preserved along any schedule. -/
theorem inv_run (cfg : Cfg α σ) {items : List α} {n : Nat}
    (hok : ∀ d a, (cfg.dsend d a).isSome = true)
    {st : PoolState α σ} (hInv : Inv cfg items n st) (sched : List Nat) :
    Inv cfg items n (run cfg st sched) := by
  induction sched generalizing st with
  | nil => exact hInv
  | cons i sched ih => exact ih (inv_step cfg hok hInv i)

end InvariantMain

end Coro

namespace Coro

section StuckLemmas

variable {α σ : Type} [DecidableEq α]

/-- A worker at the top of its loop always has a step. -/
theorem enabled_of_atCheck {st : PoolState α σ} {i : Nat} {w : Worker α σ}
    (hw : st.workers[i]? = some w) (hph : w.phase = Phase.atCheck) :
    enabled st i = true := by
  simp [enabled, hw, hph]

/-- In a stuck state, a worker inside `messages.get()` means the queue is
empty. -/
theorem queue_empty_of_stuck_waiting {st : PoolState α σ} {i : Nat} {w : Worker α σ}
    (hw : st.workers[i]? = some w) (hph : w.phase = Phase.waiting) (hs : Stuck st) :
    st.queue = [] := by
  cases hq : st.queue with
  | nil => rfl
  | cons a l =>
    have h := hs i
    rw [show enabled st i = true from by simp [enabled, hw, hph, hq]] at h
    cases h

/-- In a stuck state of an invariant-carrying run, every worker has
terminated normally. -/
theorem stuck_all_done (cfg : Cfg α σ) {items : List α} {n : Nat} {st : PoolState α σ}
    (hInv : Inv cfg items n st) (hs : Stuck st) :
    ∀ w ∈ st.workers, w.phase = Phase.done := by
  intro w hwmem
  obtain ⟨i, hlt, hi⟩ := List.getElem_of_mem hwmem
  have hw : st.workers[i]? = some w := by rw [List.getElem?_eq_getElem hlt, hi]
  cases hph : w.phase with
  | done => rfl
  | crashed => exact absurd hph ((hInv.winv w hwmem).2.2)
  | atCheck =>
    have h := hs i
    rw [enabled_of_atCheck hw hph] at h
    cases h
  | waiting =>
    have hq := queue_empty_of_stuck_waiting hw hph hs
    have h0 : aliveCount st = 0 := by
      have hsc := hInv.scount
      rw [hq] at hsc
      simpa using hsc.symm
    have halive : Worker.alive w = true := by simp [Worker.alive, hph]
    have hpos : 0 < st.workers.countP Worker.alive :=
      List.countP_pos.mpr ⟨w, hwmem, halive⟩
    unfold aliveCount at h0
    omega

/-- In a stuck state of an invariant-carrying run with at least one worker,
the queue has been fully drained. -/
theorem stuck_queue_empty (cfg : Cfg α σ) {items : List α} {n : Nat} {st : PoolState α σ}
    (hInv : Inv cfg items n st) (hs : Stuck st) (hn : 1 ≤ n) : st.queue = [] := by
  have hdone := stuck_all_done cfg hInv hs
  have halive : aliveCount st = 0 := by
    unfold aliveCount
    rw [List.countP_eq_zero]
    intro w hw
    simp [Worker.alive, hdone w hw]
  have hcount : st.queue.count cfg.sentinel = 0 := by
    rw [hInv.scount]
    exact halive
  obtain ⟨t, ht⟩ := hInv.sfx
  have hqd : st.queue = (items ++ List.replicate n cfg.sentinel).drop t.length := by
    rw [← ht, List.drop_left]
  rw [List.drop_append_eq_append_drop] at hqd
  cases le_or_lt t.length items.length with
  | inl hle =>
    have h1 : t.length - items.length = 0 := Nat.sub_eq_zero_of_le hle
    rw [h1, List.drop_zero] at hqd
    have hge : n ≤ st.queue.count cfg.sentinel := by
      rw [hqd, List.count_append, List.count_replicate_self]
      omega
    omega
  | inr hlt =>
    have h1 : List.drop t.length items = [] := List.drop_eq_nil_of_le (Nat.le_of_lt hlt)
    rw [h1, List.drop_replicate, List.nil_append] at hqd
    rw [hqd, List.count_replicate_self] at hcount
    rw [hqd, hcount]
    rfl

/-- The executable stuckness check implies stuckness. -/
theorem stuck_of_stuckB {st : PoolState α σ} (h : stuckB st = true) : Stuck st := by
  intro i
  by_cases hlt : i < st.workers.length
  · have hall := List.all_eq_true.mp h i (List.mem_range.mpr hlt)
    simpa using hall
  · simp [enabled, List.getElem?_eq_none (Nat.le_of_not_lt hlt)]

end StuckLemmas

section ClaimC2C3

variable {α σ : Type} [DecidableEq α]

/-- C2: for every worker count `n ≥ 1` and every list of items (all distinct
from the sentinel) sent to the thread pool before `close`, under a downstream
`send` that never raises, once the workers have drained the queue and no step
remains, the items forwarded by all workers to their private downstream
stages, taken together, are a permutation of the sent items: nothing is lost
and nothing is duplicated. -/
theorem pool_items_conserved (cfg : Cfg α σ) (items : List α) (n : Nat) (sched : List Nat)
    (hn : 1 ≤ n) (hitems : ∀ a ∈ items, ¬a = cfg.sentinel)
    (hok : ∀ d a, (cfg.dsend d a).isSome = true)
    (hstuck : Stuck (run cfg (threadedClose cfg (threadedSendAll (threadedInit cfg n) items))
      sched)) :
    List.Perm
      (((run cfg (threadedClose cfg (threadedSendAll (threadedInit cfg n) items))
        sched).workers.map Worker.sent).flatten)
      items := by
  have hInv := inv_run cfg hok (inv_init cfg items n hitems) sched
  have hqe := stuck_queue_empty cfg hInv hstuck hn
  have hp := hInv.perm
  rw [hqe] at hp
  simpa [nonSentinel] using hp

set_option maxRecDepth 8192 in
/-- Witness for C2: Scenario A — items 1..10, pool of two workers over
recording sinks, run to a stuck state. -/
theorem pool_items_conserved_witness :
    1 ≤ 2
    ∧ (∀ a ∈ scenarioAItems, ¬a = recordingCfg.sentinel)
    ∧ (∀ d a, (recordingCfg.dsend d a).isSome = true)
    ∧ Stuck scenarioARun
    ∧ List.Perm ((scenarioARun.workers.map Worker.sent).flatten) scenarioAItems :=
  ⟨by decide, by decide, fun d a => rfl, stuck_of_stuckB (by decide),
    pool_items_conserved recordingCfg scenarioAItems 2 (List.replicate 22 0 ++ [1, 1])
      (by decide) (by decide) (fun d a => rfl) (stuck_of_stuckB (by decide))⟩

/-- C3: for every worker count `n ≥ 1`, items distinct from the sentinel and a
never-raising downstream, a single `close` call drives every maximal run to a
state where exactly the `n` workers have terminated — never more, never
fewer — the queue (including all `n` sentinels) is fully consumed, and each
worker has consumed exactly one sentinel and closed its private downstream
stage exactly once.  This covers in particular the zero-items case. -/
theorem close_terminates_each_worker_once (cfg : Cfg α σ) (items : List α) (n : Nat)
    (sched : List Nat)
    (hn : 1 ≤ n) (hitems : ∀ a ∈ items, ¬a = cfg.sentinel)
    (hok : ∀ d a, (cfg.dsend d a).isSome = true)
    (hstuck : Stuck (run cfg (threadedClose cfg (threadedSendAll (threadedInit cfg n) items))
      sched)) :
    (run cfg (threadedClose cfg (threadedSendAll (threadedInit cfg n) items))
        sched).workers.length = n
    ∧ (run cfg (threadedClose cfg (threadedSendAll (threadedInit cfg n) items))
        sched).queue = []
    ∧ ∀ w ∈ (run cfg (threadedClose cfg (threadedSendAll (threadedInit cfg n) items))
        sched).workers, w.phase = Phase.done ∧ w.closes = 1 ∧ w.sentinels = 1 := by
  have hInv := inv_run cfg hok (inv_init cfg items n hitems) sched
  refine ⟨hInv.wlen, stuck_queue_empty cfg hInv hstuck hn, ?_⟩
  intro w hw
  have hd := stuck_all_done cfg hInv hstuck w hw
  exact ⟨hd, ((hInv.winv w hw).1 hd).1, ((hInv.winv w hw).1 hd).2⟩

set_option maxRecDepth 8192 in
/-- Witness for C3: Scenario C — pool of three workers, zero items, immediate
close, run to a stuck state. -/
theorem close_terminates_each_worker_once_witness :
    1 ≤ 3
    ∧ (∀ a ∈ ([] : List PyVal), ¬a = recordingCfg.sentinel)
    ∧ (∀ d a, (recordingCfg.dsend d a).isSome = true)
    ∧ Stuck scenarioCRun
    ∧ (scenarioCRun.workers.length = 3
      ∧ scenarioCRun.queue = []
      ∧ ∀ w ∈ scenarioCRun.workers,
          w.phase = Phase.done ∧ w.closes = 1 ∧ w.sentinels = 1) :=
  ⟨by decide, by decide, fun d a => rfl, stuck_of_stuckB (by decide),
    close_terminates_each_worker_once recordingCfg [] 3 [0, 0, 1, 1, 2, 2]
      (by decide) (by decide) (fun d a => rfl) (stuck_of_stuckB (by decide))⟩

end ClaimC2C3

end Coro
